import Mathlib

/-!
Verification of the reference-resolution pipeline in `crossref_bot.py`.

The Python source is shallowly embedded: pure functions become Lean
functions over `List Char` / `String`, Python floats become `ℚ`, fallible
values become `Option`, and the two HTTP collaborators (work search and
citation rendering) become oracle parameters.  Python runtime errors that
the source can actually raise on representable inputs (an `IndexError`
from indexing `[0]` into an empty list) are modelled with `Except`.

Character-class predicates (`\w`, `\s`, `str.lower`, `str.isdigit`) are
modelled at ASCII fidelity; all concrete inputs used in theorems are
ASCII.
-/

namespace CrossrefBot

/-- Null character used as the out-of-range default when indexing a
`List Char`; it is not a digit, word character, parenthesis or
whitespace, so the regex predicates below behave on out-of-range indices
exactly as bounds checks would. -/
def nullChar : Char := Char.ofNat 0

/-- Character at index `i`, or `nullChar` past the end. -/
def atc (l : List Char) (i : Nat) : Char := l.getD i nullChar

/-- Python regex `\s` over ASCII: space, tab, newline, carriage return,
vertical tab, form feed. -/
def pyWs (c : Char) : Bool :=
  c = ' ' || c = '\t' || c = '\n' || c = '\x0d' || c = '\x0b' || c = '\x0c'

/-- Python regex `\w` over ASCII: letters, digits, underscore. -/
def pyWord (c : Char) : Bool := c.isAlphanum || c = '_'

/-- Python `str.strip()` (ASCII whitespace). -/
def pyStrip (l : List Char) : List Char :=
  ((l.dropWhile pyWs).reverse.dropWhile pyWs).reverse

/-- Python `str.strip(chars)` for an explicit character set. -/
def pyStripSet (set : List Char) (l : List Char) : List Char :=
  ((l.dropWhile (· ∈ set)).reverse.dropWhile (· ∈ set)).reverse

/-- Python `str.rstrip(chars)` for an explicit character set. -/
def pyRstripSet (set : List Char) (l : List Char) : List Char :=
  (l.reverse.dropWhile (· ∈ set)).reverse

/-- Python truthiness of an optional string value (a missing dict key or
`None` is falsy, and so is the empty string). -/
def optStrTruthy : Option String → Bool
  | none => false
  | some s => !s.isEmpty

/-- Fuel-driven scan for `scanFirst` (structural recursion, so that the
kernel can evaluate it). -/
def scanFirstAux (p : Nat → Bool) : Nat → Nat → Option Nat
  | 0, _ => none
  | fuel + 1, i => if p i then some i else scanFirstAux p fuel (i + 1)

/-- First index `i0` with `i ≤ i0 < n` satisfying `p`, scanning left to
right; this is how `re.search` picks the leftmost match position. -/
def scanFirst (p : Nat → Bool) (n : Nat) (i : Nat) : Option Nat :=
  scanFirstAux p (n - i) i

/-- Fuel-driven loop for `runLen`. -/
def runLenAux (p : Char → Bool) (l : List Char) : Nat → Nat → Nat
  | 0, _ => 0
  | fuel + 1, i =>
    if i < l.length ∧ p (atc l i) then runLenAux p l fuel (i + 1) + 1 else 0

/-- Length of the run of characters satisfying `p` starting at index `i`
(capped at the end of the list). -/
def runLen (p : Char → Bool) (l : List Char) (i : Nat) : Nat :=
  runLenAux p l (l.length - i) i

/-- `lit` occurs literally at index `i`. -/
def litAt (l : List Char) (lit : List Char) (i : Nat) : Bool :=
  match lit with
  | [] => true
  | c :: cs => atc l i = c && litAt l cs (i + 1)

/-- Python `str.lower` at ASCII fidelity. -/
def pyLower (l : List Char) : List Char := l.map Char.toLower

/-- Nat value of a run of digit characters (most significant first). -/
def digitsVal (cs : List Char) : Nat :=
  cs.foldl (fun acc c => acc * 10 + (c.toNat - '0'.toNat)) 0

section ScanFirstLemmas

theorem scanFirstAux_eq_some {p : Nat → Bool} :
    ∀ {fuel i m : Nat}, scanFirstAux p fuel i = some m →
      i ≤ m ∧ m < i + fuel ∧ p m = true ∧ ∀ j, i ≤ j → j < m → p j = false := by
  intro fuel
  induction fuel with
  | zero => intro i m h; cases h
  | succ f ih =>
    intro i m h
    rw [scanFirstAux] at h
    by_cases hp : p i
    · rw [if_pos hp] at h
      cases h
      exact ⟨Nat.le_refl _, by omega, hp,
        fun j hj hj' => absurd (Nat.lt_of_le_of_lt hj hj') (Nat.lt_irrefl _)⟩
    · rw [if_neg hp] at h
      obtain ⟨h1, h2, h3, h4⟩ := ih h
      refine ⟨by omega, by omega, h3, fun j hj hj' => ?_⟩
      rcases Nat.eq_or_lt_of_le hj with rfl | hj2
      · exact Bool.of_not_eq_true hp
      · exact h4 j hj2 hj'

theorem scanFirstAux_of_first {p : Nat → Bool} {m : Nat}
    (hp : p m = true) (hleast : ∀ j, j < m → p j = false) :
    ∀ fuel i, i ≤ m → m < i + fuel → scanFirstAux p fuel i = some m := by
  intro fuel
  induction fuel with
  | zero => intro i _ h2; omega
  | succ f ih =>
    intro i h1 h2
    rw [scanFirstAux]
    rcases Nat.eq_or_lt_of_le h1 with rfl | hi2
    · rw [if_pos hp]
    · rw [if_neg (by simp [hleast i hi2])]
      exact ih (i + 1) hi2 (by omega)

theorem scanFirstAux_eq_none {p : Nat → Bool} :
    ∀ {fuel i : Nat}, scanFirstAux p fuel i = none →
      ∀ j, i ≤ j → j < i + fuel → p j = false := by
  intro fuel
  induction fuel with
  | zero => intro i _ j _ hj2; omega
  | succ f ih =>
    intro i h j hj1 hj2
    rw [scanFirstAux] at h
    by_cases hp : p i
    · rw [if_pos hp] at h; cases h
    · rw [if_neg hp] at h
      rcases Nat.eq_or_lt_of_le hj1 with rfl | hj3
      · exact Bool.of_not_eq_true hp
      · exact ih h j hj3 (by omega)

theorem scanFirst_eq_some {p : Nat → Bool} {n i m : Nat}
    (h : scanFirst p n i = some m) :
    i ≤ m ∧ m < n ∧ p m = true ∧ ∀ j, i ≤ j → j < m → p j = false := by
  obtain ⟨h1, h2, h3, h4⟩ := scanFirstAux_eq_some h
  exact ⟨h1, by omega, h3, h4⟩

theorem scanFirst_of_first {p : Nat → Bool} {n m : Nat} (i : Nat)
    (hi : i ≤ m) (hm : m < n) (hp : p m = true)
    (hleast : ∀ j, j < m → p j = false) :
    scanFirst p n i = some m :=
  scanFirstAux_of_first hp hleast (n - i) i hi (by omega)

theorem scanFirst_eq_none {p : Nat → Bool} {n : Nat} (i : Nat)
    (h : scanFirst p n i = none) : ∀ j, i ≤ j → j < n → p j = false :=
  fun j hj hjn => scanFirstAux_eq_none h j hj (by omega)

end ScanFirstLemmas

/-! ## `difflib.SequenceMatcher` (as used by the scorer)

The scorer calls `SequenceMatcher(None, s1, s2).ratio()`.  We model the
CPython algorithm: `b2j` drops "popular" elements when `len(b) >= 200`
(autojunk; no junk predicate is supplied, so `bjunk` is empty), the
DP in `find_longest_match` keeps the first strict improvement while
scanning end positions in lexicographic order (equivalently: the longest
match, earliest in `a`, then earliest in `b`), and the four extension
loops then widen the block.  `ratio` is `2*M/T` as an exact rational. -/

/-- Autojunk: with `len(b) >= 200`, elements occurring more than
`len(b) // 100 + 1` times are dropped from `b2j`. -/
def popularB (b : List Char) (c : Char) : Bool :=
  200 ≤ b.length && b.length / 100 + 1 < b.count c

/-- A DP cell matches: both indices in range, equal characters, and the
`b` character present in `b2j` (not junk, not popular). -/
def dpMatch (a b : List Char) (pop junk : Char → Bool) (i j : Nat) : Bool :=
  decide (i < a.length) && decide (j < b.length) &&
  atc a i = atc b j && !junk (atc b j) && !pop (atc b j)

/-- Length of the matching run ending at cell `(i, j)` and clipped at
`alo`/`blo`; this is the value `newj2len[j] = j2len.get(j-1, 0) + 1`
computes row by row in `find_longest_match`.  The recursion (on the
predecessor of `i`) steps to cell `(i-1, j-1)` while `alo < i` and
`blo < j`. -/
def endRun (a b : List Char) (pop junk : Char → Bool) (alo blo : Nat) :
    Nat → Nat → Nat
  | 0, j => if dpMatch a b pop junk 0 j then 1 else 0
  | i + 1, j =>
    if dpMatch a b pop junk (i + 1) j then
      if alo < i + 1 ∧ blo < j then endRun a b pop junk alo blo i (j - 1) + 1
      else 1
    else 0

/-- Inner DP loop over `j` (fuel `bhi - j`): first strict improvement
wins, matching the `if k > bestsize` update rule. -/
def flmScanJ (a b : List Char) (pop junk : Char → Bool) (alo blo : Nat)
    (i : Nat) : Nat → Nat → Nat × Nat × Nat → Nat × Nat × Nat
  | 0, _, st => st
  | fuel + 1, j, st =>
    flmScanJ a b pop junk alo blo i fuel (j + 1)
      (if st.2.2 < endRun a b pop junk alo blo i j then
        (i + 1 - endRun a b pop junk alo blo i j,
         j + 1 - endRun a b pop junk alo blo i j,
         endRun a b pop junk alo blo i j)
      else st)

/-- Outer DP loop over `i` (fuel `ahi - i`). -/
def flmScanI (a b : List Char) (pop junk : Char → Bool) (alo blo bhi : Nat) :
    Nat → Nat → Nat × Nat × Nat → Nat × Nat × Nat
  | 0, _, st => st
  | fuel + 1, i, st =>
    flmScanI a b pop junk alo blo bhi fuel (i + 1)
      (flmScanJ a b pop junk alo blo i (bhi - blo) blo st)

/-- First extension loop: extend left over equal non-junk characters
(structural on `besti`; the loop guard `besti > alo` fails at `0`). -/
def extLeft (a b : List Char) (junk : Char → Bool) (alo blo : Nat) :
    Nat → Nat → Nat → Nat × Nat × Nat
  | 0, bj, bs => (0, bj, bs)
  | bi + 1, bj, bs =>
    if alo < bi + 1 ∧ blo < bj ∧ junk (atc b (bj - 1)) = false ∧
        atc a bi = atc b (bj - 1) then
      extLeft a b junk alo blo bi (bj - 1) (bs + 1)
    else (bi + 1, bj, bs)

/-- Fuel-driven loop for `extRight`; the fuel `ahi - (besti + bestsize)`
dominates the loop guard `besti + bestsize < ahi`, so it never runs out
first. -/
def extRightAux (a b : List Char) (junk : Char → Bool) (ahi bhi bi bj : Nat) :
    Nat → Nat → Nat × Nat × Nat
  | 0, bs => (bi, bj, bs)
  | fuel + 1, bs =>
    if bi + bs < ahi ∧ bj + bs < bhi ∧ junk (atc b (bj + bs)) = false ∧
        atc a (bi + bs) = atc b (bj + bs) then
      extRightAux a b junk ahi bhi bi bj fuel (bs + 1)
    else (bi, bj, bs)

/-- Second extension loop: extend right over equal non-junk characters. -/
def extRight (a b : List Char) (junk : Char → Bool) (ahi bhi bi bj bs : Nat) :
    Nat × Nat × Nat :=
  extRightAux a b junk ahi bhi bi bj (ahi - (bi + bs)) bs

/-- Third extension loop: extend left over equal junk characters. -/
def extLeftJunk (a b : List Char) (junk : Char → Bool) (alo blo : Nat) :
    Nat → Nat → Nat → Nat × Nat × Nat
  | 0, bj, bs => (0, bj, bs)
  | bi + 1, bj, bs =>
    if alo < bi + 1 ∧ blo < bj ∧ junk (atc b (bj - 1)) = true ∧
        atc a bi = atc b (bj - 1) then
      extLeftJunk a b junk alo blo bi (bj - 1) (bs + 1)
    else (bi + 1, bj, bs)

/-- Fuel-driven loop for `extRightJunk`. -/
def extRightJunkAux (a b : List Char) (junk : Char → Bool) (ahi bhi bi bj : Nat) :
    Nat → Nat → Nat × Nat × Nat
  | 0, bs => (bi, bj, bs)
  | fuel + 1, bs =>
    if bi + bs < ahi ∧ bj + bs < bhi ∧ junk (atc b (bj + bs)) = true ∧
        atc a (bi + bs) = atc b (bj + bs) then
      extRightJunkAux a b junk ahi bhi bi bj fuel (bs + 1)
    else (bi, bj, bs)

/-- Fourth extension loop: extend right over equal junk characters. -/
def extRightJunk (a b : List Char) (junk : Char → Bool) (ahi bhi bi bj bs : Nat) :
    Nat × Nat × Nat :=
  extRightJunkAux a b junk ahi bhi bi bj (ahi - (bi + bs)) bs

/-- `SequenceMatcher.find_longest_match` on the slice
`a[alo:ahi] × b[blo:bhi]`. -/
def find_longest_match (a b : List Char) (pop junk : Char → Bool)
    (alo ahi blo bhi : Nat) : Nat × Nat × Nat :=
  let s0 := flmScanI a b pop junk alo blo bhi (ahi - alo) alo (alo, blo, 0)
  let s1 := extLeft a b junk alo blo s0.1 s0.2.1 s0.2.2
  let s2 := extRight a b junk ahi bhi s1.1 s1.2.1 s1.2.2
  let s3 := extLeftJunk a b junk alo blo s2.1 s2.2.1 s2.2.2
  extRightJunk a b junk ahi bhi s3.1 s3.2.1 s3.2.2

/-- Total size of the matching blocks (the sum `get_matching_blocks`
feeds into `ratio`).  The recursion of `get_matching_blocks` always has
depth at most the total slice size, so the explicit fuel never runs out
on the calls made by `ratioQ`. -/
def matchTotal (a b : List Char) (pop junk : Char → Bool) :
    Nat → Nat → Nat → Nat → Nat → Nat
  | 0, _, _, _, _ => 0
  | fuel + 1, alo, ahi, blo, bhi =>
    let r := find_longest_match a b pop junk alo ahi blo bhi
    if r.2.2 = 0 then 0
    else matchTotal a b pop junk fuel alo r.1 blo r.2.1 + r.2.2 +
         matchTotal a b pop junk fuel (r.1 + r.2.2) ahi (r.2.1 + r.2.2) bhi

/-- `SequenceMatcher(None, a, b).ratio()` as an exact rational:
`2*M/T`, and `1.0` when both sequences are empty. -/
def ratioQ (a b : List Char) : ℚ :=
  if a.length + b.length = 0 then 1
  else 2 * (matchTotal a b (popularB b) (fun _ => false)
      (a.length + b.length + 1) 0 a.length 0 b.length : ℚ) / (a.length + b.length)

/-- The title-similarity function of the scorer: `ratio` over two
already-normalized title strings. -/
def titleSimilarity (s t : String) : ℚ := ratioQ s.data t.data

/-! ## `_parse_year_from_reference`

Source lines 422-441.  Primary pattern `\((\d{4})\)` (leftmost match),
fallback `\b(\d{4})\b` (leftmost match) accepted only when
`1700 < int(candidate) < 2100` and the character before the match is not
a digit. -/

/-- Four digit characters occur at indices `i .. i+3`.  Out-of-range
indices yield `nullChar`, which is not a digit, so this implies the
indices are in range. -/
def fourDigitsAt (l : List Char) (i : Nat) : Bool :=
  (atc l i).isDigit && (atc l (i + 1)).isDigit &&
  (atc l (i + 2)).isDigit && (atc l (i + 3)).isDigit

/-- The regex `\((\d{4})\)` matches starting at index `i`. -/
def parenYearAt (l : List Char) (i : Nat) : Bool :=
  atc l i = '(' && fourDigitsAt l (i + 1) && atc l (i + 5) = ')'

/-- The regex `\b(\d{4})\b` matches starting at index `i`: a word
boundary, four digits, then a word boundary. -/
def boundYearAt (l : List Char) (i : Nat) : Bool :=
  (decide (i = 0) || !pyWord (atc l (i - 1))) &&
  fourDigitsAt l i && !pyWord (atc l (i + 4))

/-- The four characters of the year candidate starting at index `i`. -/
def yearChars (l : List Char) (i : Nat) : List Char :=
  [atc l i, atc l (i + 1), atc l (i + 2), atc l (i + 3)]

/-- `_parse_year_from_reference` (source lines 422-441). -/
def parse_year_from_reference (s : String) : Option String :=
  match scanFirst (fun i => parenYearAt s.data i) s.data.length 0 with
  | some i => some (String.mk (yearChars s.data (i + 1)))
  | none =>
    match scanFirst (fun i => boundYearAt s.data i) s.data.length 0 with
    | some i =>
      if 1700 < digitsVal (yearChars s.data i) && digitsVal (yearChars s.data i) < 2100 then
        -- lines 437-439: reject when the preceding character is a digit
        if 1 ≤ i && (atc s.data (i - 1)).isDigit then none
        else some (String.mk (yearChars s.data i))
      else none
    | none => none

/-! ## `_parse_authors_from_reference` (source lines 394-420)

Regex semantics are modelled index-wise: a lazy `.*?` group scans split
positions left to right (aborting past a newline, which `.` cannot
consume), a lookahead is a bounded existential, and greedy `\s*` runs
around non-whitespace literals are maximal runs (the only extent that
can succeed). -/

/-- `p` holds at every index in `[lo, hi)`. -/
def allRangeB (p : Nat → Bool) (lo hi : Nat) : Bool :=
  (List.range (hi - lo)).all fun k => p (lo + k)

/-- `p` holds at some index in `[lo, hi)`. -/
def anyRangeB (p : Nat → Bool) (lo hi : Nat) : Bool :=
  (List.range (hi - lo)).any fun k => p (lo + k)

/-- First `some` value of `f` on `[lo, hi)`, scanning left to right. -/
def firstSomeRange (f : Nat → Option Nat) (lo hi : Nat) : Option Nat :=
  (List.range (hi - lo)).findSome? fun k => f (lo + k)

/-- Fuel-driven loop for `lazyScan`. -/
def lazyScanAux (look : Nat → Bool) (l : List Char) : Nat → Nat → Option Nat
  | 0, _ => none
  | fuel + 1, p =>
    if look p then some p
    else if atc l p = '\n' then none
    else lazyScanAux look l fuel (p + 1)

/-- Least split position `p` (scanning left to right, stopping at a
newline, which the lazy dot cannot consume) where `look` holds; this is
how `^(.*?)(?=...)` picks its group. -/
def lazyScan (look : Nat → Bool) (l : List Char) (p : Nat) : Option Nat :=
  lazyScanAux look l (l.length + 1 - p) p

/-- ASCII `[A-Z]`. -/
def isUpperAZ (c : Char) : Bool := 'A' ≤ c && c ≤ 'Z'

/-- The alternation inside the author lookahead at index `q`:
`\(\d{4}\)` or `\"\w` or `\'\w` or `[\w\s]+[.:]\s*\w`. -/
def authorLookAlt (l : List Char) (q : Nat) : Bool :=
  parenYearAt l q ||
  (atc l q = '"' && pyWord (atc l (q + 1))) ||
  (atc l q = '\'' && pyWord (atc l (q + 1))) ||
  anyRangeB (fun r =>
      allRangeB (fun x => pyWord (atc l x) || pyWs (atc l x)) q r &&
      (atc l r = '.' || atc l r = ':') &&
      anyRangeB (fun t =>
          allRangeB (fun x => pyWs (atc l x)) (r + 1) t && pyWord (atc l t))
        (r + 1) (l.length + 1))
    (q + 1) (l.length + 1)

/-- The author lookahead `(?=\s*(?:...))` at split position `p`. -/
def authorLook (l : List Char) (p : Nat) : Bool :=
  anyRangeB (fun q =>
      allRangeB (fun x => pyWs (atc l x)) p q && authorLookAlt l q)
    p (l.length + 2)

/-- End position of a match of the split regex
`\s*&\s*|\s+and\s+|\s*,\s*(?=[A-Z])` starting at `q` (alternatives in
pattern order). -/
def authorSplitEnd (seg : List Char) (q : Nat) : Option Nat :=
  let w1 := runLen pyWs seg q
  if atc seg (q + w1) = '&' then
    some (q + w1 + 1 + runLen pyWs seg (q + w1 + 1))
  else if 1 ≤ w1 && litAt seg ['a', 'n', 'd'] (q + w1) &&
      1 ≤ runLen pyWs seg (q + w1 + 3) then
    some (q + w1 + 3 + runLen pyWs seg (q + w1 + 3))
  else if atc seg (q + w1) = ',' &&
      isUpperAZ (atc seg (q + w1 + 1 + runLen pyWs seg (q + w1 + 1))) then
    some (q + w1 + 1 + runLen pyWs seg (q + w1 + 1))
  else none

/-- `re.split` driver (fuel-driven; `seg.length + 1` steps always
suffice since the scan position strictly increases): scan for the next
(non-empty) delimiter match, emit the piece before it and continue
after it. -/
def authorSplitGo (seg : List Char) : Nat → Nat → Nat → List (List Char)
  | 0, cur, _ => [seg.drop cur]
  | fuel + 1, cur, q =>
    if q < seg.length then
      match authorSplitEnd seg q with
      | some e =>
        ((seg.take q).drop cur) ::
          authorSplitGo seg fuel (max e (q + 1)) (max e (q + 1))
      | none => authorSplitGo seg fuel cur (q + 1)
    else [seg.drop cur]

/-- `[a-z'-]`: the characters allowed after the leading capital of a
surname candidate. -/
def surnameTail (c : Char) : Bool :=
  ('a' ≤ c && c ≤ 'z') || c = '\'' || c = '-'

/-- `re.match(r"([A-Z][a-z'-]+)", pa.strip())`: the leading surname
candidate of one split fragment, if any. -/
def leadingSurname (piece : List Char) : Option String :=
  let t := pyStrip piece
  if isUpperAZ (atc t 0) && 1 ≤ runLen surnameTail t 1 then
    some (String.mk (t.take (1 + runLen surnameTail t 1)))
  else none

/-- `_parse_authors_from_reference` (source lines 394-420).  CPython's
`list(set(...))` iterates the set in an unspecified order; we model it
as `List.dedup`, and no theorem below depends on the order. -/
def parse_authors_from_reference (s : String) : List String :=
  let l := s.data
  match lazyScan (authorLook l) l 0 with
  | none => []
  | some p =>
    (((authorSplitGo (l.take p) (p + 1) 0 0).filterMap leadingSurname)).dedup

/-! ## `_parse_title_from_reference` (source lines 443-479) -/

/-- End position of a match of `(\(\s*Y\s*\)|Y)\.?` starting at `p`,
where `Y` is the (escaped) year literal.  Parsed years start with a
digit, so the greedy `\s*` runs around the literal are maximal runs. -/
def yearMatchEnd (l yr : List Char) (p : Nat) : Option Nat :=
  let w1 := runLen pyWs l (p + 1)
  let afterYr := p + 1 + w1 + yr.length
  let w2 := runLen pyWs l afterYr
  let base : Option Nat :=
    if atc l p = '(' && litAt l yr (p + 1 + w1) && atc l (afterYr + w2) = ')' then
      some (afterYr + w2 + 1)
    else if litAt l yr p then some (p + yr.length)
    else none
  match base with
  | some e => some (if atc l e = '.' then e + 1 else e)
  | none => none

/-- Python `$`: end of string, or just before a terminal newline. -/
def atEnd (l : List Char) (q : Nat) : Bool :=
  decide (q = l.length) || (decide (q + 1 = l.length) && atc l q = '\n')

/-- `[a-zÀ-ÿ\s]`, the class after the leading capital in the title
boundary cue. -/
def titleCueClass (c : Char) : Bool :=
  ('a' ≤ c && c ≤ 'z') || (0xC0 ≤ c.toNat && c.toNat ≤ 0xFF) || pyWs c

/-- The venue keywords of the title boundary cue. -/
def titleKws : List (List Char) :=
  [['J','o','u','r','n','a','l'], ['C','o','n','f','e','r','e','n','c','e'],
   ['P','r','o','c','e','e','d','i','n','g','s'], ['B','o','o','k'],
   ['P','r','e','s','s'], ['U','n','i','v','e','r','s','i','t','y'],
   ['R','e','v','i','e','w']]

/-- The alternation inside the title lookahead at index `q`. -/
def titleLookAlt (l : List Char) (q : Nat) : Bool :=
  (litAt l ['I', 'n'] q && pyWs (atc l (q + 2))) ||
  litAt l ['V', 'o', 'l', '.'] q ||
  (isUpperAZ (atc l q) &&
    anyRangeB (fun r =>
        allRangeB (fun x => titleCueClass (atc l x)) (q + 1) r &&
        titleKws.any fun kw => litAt l kw r)
      (q + 2) (l.length + 1)) ||
  litAt l ['h','t','t','p','s',':','/','/','d','o','i','.','o','r','g'] q ||
  litAt l ['d','o','i',':'] q

/-- The title lookahead `(?=\s+(?:...|$))` at split position `p`: at
least one whitespace character, then a boundary cue at the end of the
whitespace run, or the end of the string somewhere inside the run. -/
def titleLook (l : List Char) (p : Nat) : Bool :=
  let w := runLen pyWs l p
  (1 ≤ w && titleLookAlt l (p + w)) ||
  anyRangeB (fun k => atEnd l (p + k)) 1 (w + 1)

/-- Strip matching surrounding quotes, then whitespace (source lines
464-469). -/
def titleCleanup (t : List Char) : String :=
  let t := pyRstripSet ['.', ':', ','] (pyStrip t)
  let t :=
    if 1 ≤ t.length &&
        ((atc t 0 = '"' && atc t (t.length - 1) = '"') ||
         (atc t 0 = '\'' && atc t (t.length - 1) = '\'')) then
      (t.drop 1).dropLast
    else t
  String.mk (pyStrip t)

/-- `.*$` of the trailing-venue `re.sub` pattern, matched from `e`:
returns the span end (the greedy dot stops before a terminal newline). -/
def subTailPos (t : List Char) (e : Nat) : Option Nat :=
  if allRangeB (fun x => !(atc t x = '\n')) e t.length then some t.length
  else if 1 ≤ t.length && allRangeB (fun x => !(atc t x = '\n')) e (t.length - 1) &&
      atc t (t.length - 1) = '\n' then
    some (t.length - 1)
  else none

/-- `[\w\s&]`. -/
def classWSAmp (c : Char) : Bool := pyWord c || pyWs c || c = '&'

/-- Venue keywords of the trailing-venue `re.sub` pattern. -/
def subKws : List (List Char) :=
  [['J','o','u','r','n','a','l'], ['C','o','n','f'], ['P','r','o','c'],
   ['R','e','v'], ['B','u','l','l']]

/-- Span end of one inner alternative of the trailing-venue pattern
starting at `q0`, combined with `.*$` (first parameters that succeed,
alternatives in pattern order). -/
def subInnerEnd (t : List Char) (q0 : Nat) : Option Nat :=
  (if isUpperAZ (atc t q0) then
    firstSomeRange (fun r =>
        if allRangeB (fun x => classWSAmp (atc t x)) (q0 + 1) r then
          subKws.findSome? fun kw =>
            if litAt t kw r then subTailPos t (r + kw.length) else none
        else none)
      (q0 + 2) (t.length + 1)
  else none) <|>
  (if litAt t ['V','o','l','.'] q0 then subTailPos t (q0 + 4) else none) <|>
  (if litAt t ['p','p','.'] q0 then subTailPos t (q0 + 3) else none) <|>
  (let d := runLen Char.isDigit t q0
   if 1 ≤ d && (atc t (q0 + d) = ':' || atc t (q0 + d) = '-' || atc t (q0 + d) = '(') then
     subTailPos t (q0 + d + 1)
   else none)

/-- Span end when the trailing-venue pattern
`\.\s+(?:[A-Z][\w\s&]+(?:Journal|Conf|Proc|Rev|Bull)|Vol\.|pp\.|\d+[:\-\(]).*$`
matches at `p`. -/
def subMatchAt (t : List Char) (p : Nat) : Option Nat :=
  if atc t p = '.' then
    let w := runLen pyWs t (p + 1)
    if 1 ≤ w then subInnerEnd t (p + 1 + w) else none
  else none

/-- Apply the trailing-venue `re.sub` (at most one effective match,
since the pattern swallows the rest of the string). -/
def subTrailingVenue (t : List Char) : List Char :=
  match scanFirst (fun p => (subMatchAt t p).isSome) t.length 0 with
  | some p =>
    match subMatchAt t p with
    | some q => t.take p ++ t.drop q
    | none => t
  | none => t

/-- The strip set `'.:, '` used by the fallback branches. -/
def stripPunct : List Char := ['.', ':', ',', ' ']

/-- `_parse_title_from_reference` (source lines 443-479).  The `authors`
argument is unused by the source as well. -/
def parse_title_from_reference (s : String) (_authors : List String)
    (year : Option String) : String :=
  let l := s.data
  let viaYear : Option String :=
    if optStrTruthy year then
      let yr := (year.getD "").data
      match scanFirst (fun p => (yearMatchEnd l yr p).isSome) l.length 0 with
      | some p =>
        match yearMatchEnd l yr p with
        | some e =>
          let temp := pyStrip (l.drop e)
          match lazyScan (titleLook temp) temp 0 with
          | some pt => some (titleCleanup (temp.take pt))
          | none => none
        | none => none
      | none => none
    else none
  match viaYear with
  | some t => t
  | none =>
    if 120 < l.length then
      String.mk (pyStripSet stripPunct
        (subTrailingVenue (pyStrip (l.drop (l.length - 120)))))
    else String.mk (pyStripSet stripPunct l)

/-! ## `urllib.parse.quote_plus` -/

/-- Uppercase hex digit. -/
def hexDigitU (n : Nat) : Char :=
  if n < 10 then Char.ofNat ('0'.toNat + n) else Char.ofNat ('A'.toNat + n - 10)

/-- Percent-encode one byte. -/
def pctByte (b : Nat) : List Char := ['%', hexDigitU (b / 16), hexDigitU (b % 16)]

/-- UTF-8 bytes of a code point. -/
def utf8Bytes (n : Nat) : List Nat :=
  if n < 0x80 then [n]
  else if n < 0x800 then [0xC0 + n / 64, 0x80 + n % 64]
  else if n < 0x10000 then [0xE0 + n / 4096, 0x80 + (n / 64) % 64, 0x80 + n % 64]
  else [0xF0 + n / 262144, 0x80 + (n / 4096) % 64, 0x80 + (n / 64) % 64, 0x80 + n % 64]

/-- `urllib.parse.quote_plus`: ASCII alphanumerics and `_.-~` pass
through, space becomes `+`, everything else is percent-encoded. -/
def quote_plus (s : String) : String :=
  String.mk ((s.data.map fun c =>
    if c = ' ' then ['+']
    else if c.isAlphanum || c = '_' || c = '.' || c = '-' || c = '~' then [c]
    else ((utf8Bytes c.toNat).map pctByte).flatten).flatten)

/-! ## Data model

`SearchParams` is the structured criteria dictionary.  `Option String`
fields model dict keys (`none` = key absent; `some ""` = key present
with a falsy value).  The placeholder keys `open_access` and
`cited_by_doi` are never read by the source and are omitted.
`WorkItem` is one registry result item; fields the source never reads
are omitted, and field values of unexpected Python types (whose only
effect in the source is to be skipped or collapse the year lookup) are
not representable. -/

structure SearchParams where
  keyword : Option String := none
  title : Option String := none
  author : Option String := none
  doi : Option String := none
  issn : Option String := none
  affiliation : Option String := none
  funding_agency_name : Option String := none
  funding_agency_doi : Option String := none
  publication_type : Option String := none
  publication_year_from : Option String := none
  publication_year_to : Option String := none
  raw_filters : List String := []
  filter : Option String := none
  sort : Option String := none
  order : Option String := none
  deriving DecidableEq

/-- The flat parameter set handed to the transport layer for the
`/works` endpoint (the keys `_build_api_params` can produce, plus the
`mailto` key added by `search_crossref_api`). -/
structure ApiParams where
  queryBibliographic : Option String := none
  queryTitle : Option String := none
  queryAuthor : Option String := none
  queryDoi : Option String := none
  queryAffiliation : Option String := none
  filter : Option String := none
  rows : Int := 0
  mailto : Option String := none
  deriving DecidableEq

/-- One entry of a result item's `author` list. -/
structure AuthorRec where
  family : Option String := none
  deriving DecidableEq

/-- One registry result item, with the fields the source reads:
`title`, `author`, the three date sources (each `date-parts`, a list of
`[year, month, day]` lists whose entries may be `None`), and `DOI`. -/
structure WorkItem where
  title : Option (List String) := none
  author : List AuthorRec := []
  publishedPrint : Option (List (List (Option Int))) := none
  publishedOnline : Option (List (List (Option Int))) := none
  created : Option (List (List (Option Int))) := none
  doi : Option String := none
  deriving DecidableEq

/-- A duck-typed argument of `search_crossref_api` /
`get_new_works`: a criteria dict, a bare query string, or anything
else. -/
inductive PyParams where
  | dict (sp : SearchParams)
  | str (s : String)
  | other
  deriving DecidableEq

/-! ## `_build_api_params` (source lines 15-114) -/

/-- `_build_api_params`.  Note that the keys `filter`, `sort` and
`order` of `search_params` are never read here: the produced `filter`
is rebuilt from scratch out of `issn`, the publication-year pair,
`funding_agency_doi`, `publication_type` and `raw_filters` only. -/
def build_api_params (sp : SearchParams) (rows : Int) : ApiParams :=
  let qb0 : Option String := if optStrTruthy sp.keyword then sp.keyword else none
  -- lines 59-63: funding_agency_name falls back into query.bibliographic
  let qb : Option String :=
    if optStrTruthy sp.funding_agency_name && !optStrTruthy qb0 &&
        !optStrTruthy sp.keyword then
      sp.funding_agency_name
    else qb0
  let filters : List String :=
    (if optStrTruthy sp.issn then ["issn:" ++ quote_plus (sp.issn.getD "")] else []) ++
    (if optStrTruthy sp.publication_year_from && optStrTruthy sp.publication_year_to then
        ["from-pub-date:" ++ sp.publication_year_from.getD "" ++
         "-01-01,until-pub-date:" ++ sp.publication_year_to.getD "" ++ "-12-31"]
     else if optStrTruthy sp.publication_year_from then
        ["from-pub-date:" ++ sp.publication_year_from.getD "" ++ "-01-01"]
     else if optStrTruthy sp.publication_year_to then
        ["until-pub-date:" ++ sp.publication_year_to.getD "" ++ "-12-31"]
     else []) ++
    (if optStrTruthy sp.funding_agency_doi then
        ["funder:" ++ quote_plus (sp.funding_agency_doi.getD "")] else []) ++
    (if optStrTruthy sp.publication_type then
        ["type:" ++ quote_plus (sp.publication_type.getD "")] else []) ++
    (if sp.raw_filters.isEmpty then [] else sp.raw_filters)
  { queryBibliographic := qb
    queryTitle := if optStrTruthy sp.title then sp.title else none
    queryAuthor := if optStrTruthy sp.author then sp.author else none
    queryDoi := if optStrTruthy sp.doi then sp.doi else none
    queryAffiliation := if optStrTruthy sp.affiliation then sp.affiliation else none
    filter := if filters.isEmpty then none else some (String.intercalate "," filters)
    rows := max 1 (min rows 1000)  -- line 105
    mailto := none }

/-! ## `search_crossref_api` (source lines 117-172)

The HTTP transport is an oracle from the request parameter set to
`Option (List WorkItem)`; `none` covers every request/decoding failure
path (all of which return `None` in the source), and the successful
path's `data.get("message", {}).get("items", [])` is the oracle's
list. -/

def DEFAULT_MAILTO_EMAIL : String := "anonymous@example.com"

/-- Lines 145-153: the effective mailto (`mailto_email or DEFAULT`) is
added to the parameter set; `_build_api_params` never sets it. -/
def withMailto (mailtoEmail : Option String) (p : ApiParams) : ApiParams :=
  let eff := if optStrTruthy mailtoEmail then mailtoEmail.getD "" else DEFAULT_MAILTO_EMAIL
  { p with mailto := some eff }

/-- `search_crossref_api`. -/
def search_crossref_api (input : PyParams) (rows : Int)
    (mailtoEmail : Option String)
    (searchOracle : ApiParams → Option (List WorkItem)) :
    Option (List WorkItem) :=
  match input with
  | .dict sp => searchOracle (withMailto mailtoEmail (build_api_params sp rows))
  | .str s => searchOracle (withMailto mailtoEmail (build_api_params { keyword := some s } rows))
  | .other => none

/-! ## The candidate scorer (source lines 275-342) -/

/-- Lower-case + strip + `re.sub(r"[^\w\s]", "", ·)`: the normalization
applied to both titles before `SequenceMatcher`. -/
def normalizeTitle (s : String) : String :=
  String.mk ((pyStrip (pyLower s.data)).filter fun c => pyWord c || pyWs c)

/-- Lines 277-280: the candidate's first title, or `""` when the list is
missing, empty, or its first entry is falsy. -/
def itemTitleStr (it : WorkItem) : String :=
  match it.title with
  | some (t :: _) => if !t.isEmpty then t else ""
  | _ => ""

/-- Lines 289-305: the author component of the confidence score. -/
def authorScore (parsedAuthors : List String) (itemAuthors : List AuthorRec) : ℚ :=
  if !parsedAuthors.isEmpty && !itemAuthors.isEmpty then
    let lastNames := itemAuthors.filterMap fun a =>
      if optStrTruthy a.family then some (String.mk (pyLower (a.family.getD "").data))
      else none
    let matchCount :=
      (parsedAuthors.map fun pa => String.mk (pyLower pa.data)).countP (· ∈ lastNames)
    if !parsedAuthors.isEmpty then (matchCount : ℚ) / parsedAuthors.length else 0
  else if parsedAuthors.isEmpty then 1 / 2
  else 0

/-- Lines 310-320: `[src.get("date-parts", [[]])[0] for src in ...]`;
a present date source with an empty `date-parts` list raises
`IndexError`, which the surrounding `try` turns into `"N/A"`. -/
def dateSource : Option (List (List (Option Int))) → Except Unit (List (Option Int))
  | none => .ok []
  | some [] => .error ()
  | some (d :: _) => .ok d

/-- Lines 317-320: first date source that is non-empty with a non-`None`
year part. -/
def firstYearStr : List (List (Option Int)) → String
  | [] => "N/A"
  | dp :: rest =>
    match dp with
    | (some y) :: _ => toString y
    | _ => firstYearStr rest

/-- Lines 308-322: the candidate's year string, `"N/A"` when absent or
when building the source list raised. -/
def apiYearStr (it : WorkItem) : String :=
  match dateSource it.publishedPrint, dateSource it.publishedOnline,
      dateSource it.created with
  | .ok s1, .ok s2, .ok s3 => firstYearStr [s1, s2, s3]
  | _, _, _ => "N/A"

/-- Lines 276-342: the overall confidence score of one candidate.
`normalizedInputTitle` is the pre-normalized match-target title and
`expectedTitleTruthy` records whether the caller supplied an expected
title (which switches the weight set). -/
def scoreItem (parsedAuthors : List String) (parsedYear : Option String)
    (normalizedInputTitle : String) (expectedTitleTruthy : Bool)
    (it : WorkItem) : ℚ :=
  let normalizedItemTitle := normalizeTitle (itemTitleStr it)
  let titleScore : ℚ :=
    if !normalizedInputTitle.isEmpty && !normalizedItemTitle.isEmpty then
      titleSimilarity normalizedInputTitle normalizedItemTitle
    else 0
  let aScore := authorScore parsedAuthors it.author
  let yearScore : ℚ :=
    if optStrTruthy parsedYear && decide (apiYearStr it = parsedYear.getD "") then 1
    else if !optStrTruthy parsedYear then 1 / 2
    else 0
  let titleWeight : ℚ := if expectedTitleTruthy then 6 / 10 else 4 / 10
  let authorWeight : ℚ := 3 / 10
  let yearWeight : ℚ := if expectedTitleTruthy then 1 / 10 else 3 / 10
  titleWeight * titleScore + authorWeight * aScore + yearWeight * yearScore

/-! ## Best-candidate selection (source lines 266-356) -/

/-- The scan of lines 275-356 restricted to its selection effect:
starting from `(None, -1.0)`, an item replaces the best exactly when its
score strictly exceeds the running maximum. -/
def selectLoop (f : WorkItem → ℚ) :
    List WorkItem → Option WorkItem × ℚ → Option WorkItem × ℚ
  | [], st => st
  | it :: rest, (best, hi) =>
    if hi < f it then selectLoop f rest (some it, f it)
    else selectLoop f rest (best, hi)

/-- Best item and highest score after the whole scan. -/
def selectBest (f : WorkItem → ℚ) (items : List WorkItem) : Option WorkItem × ℚ :=
  selectLoop f items (none, -1)

/-! ## `find_and_cite_reference` (source lines 213-390) -/

/-- The distinct return sites of `find_and_cite_reference`, with the
data each result string interpolates. -/
inductive FCRResult where
  | resolved (citation : String)
  | matchedButCitationUnavailable (doi : String) (score : ℚ) (title : String)
  | noDoiOnHighConfidenceMatch (score : ℚ)
  | lowConfidence (originalReference titleToMatch : String) (score : ℚ) (bestTitle : String)
  | noResults (queryBasis : String)
  | noConfidentMatch (originalReference titleToMatch : String)
  deriving DecidableEq

/-- Python runtime errors reachable in the modelled fragment. -/
inductive PyErr where
  | indexError
  deriving DecidableEq

instance {ε α : Type} [DecidableEq ε] [DecidableEq α] : DecidableEq (Except ε α)
  | .ok a, .ok b =>
    if h : a = b then .isTrue (by rw [h]) else .isFalse (by intro hc; cases hc; exact h rfl)
  | .ok _, .error _ => .isFalse (by intro h; cases h)
  | .error _, .ok _ => .isFalse (by intro h; cases h)
  | .error e, .error f =>
    if h : e = f then .isTrue (by rw [h]) else .isFalse (by intro hc; cases hc; exact h rfl)

/-- `.get('title', [""])[0]` as used by the decision block (lines 370,
378, 382): defaults only when the key is absent, and raises on a
present-but-empty list. -/
def titleHeadE (it : WorkItem) : Except PyErr String :=
  match it.title with
  | none => .ok ""
  | some [] => .error .indexError
  | some (t :: _) => .ok t

def CONFIDENCE_THRESHOLD : ℚ := 65 / 100

/-- Lines 236-239: the title to match against. -/
def fac_title_to_match (referenceText : String) (expectedTitle : Option String) : String :=
  if optStrTruthy expectedTitle then expectedTitle.getD ""
  else
    parse_title_from_reference referenceText
      (parse_authors_from_reference referenceText)
      (parse_year_from_reference referenceText)

/-- Lines 243-255: the structured criteria built for the search. -/
def fac_search_params (referenceText : String) (expectedTitle : Option String) :
    SearchParams :=
  let parsedAuthors := parse_authors_from_reference referenceText
  let parsedYear := parse_year_from_reference referenceText
  let ttm := fac_title_to_match referenceText expectedTitle
  { keyword := some referenceText
    author :=
      if !parsedAuthors.isEmpty then some (String.intercalate " " parsedAuthors)
      else none
    publication_year_from := if optStrTruthy parsedYear then parsedYear else none
    publication_year_to := if optStrTruthy parsedYear then parsedYear else none
    title :=
      if !ttm.isEmpty && !optStrTruthy expectedTitle then some ttm
      else if optStrTruthy expectedTitle then expectedTitle
      else none }

/-- The parameter set the search request of `find_and_cite_reference`
is issued with (row count 5, line 261). -/
def find_and_cite_params (referenceText : String) (expectedTitle : Option String)
    (mailtoEmail : Option String) : ApiParams :=
  withMailto mailtoEmail (build_api_params (fac_search_params referenceText expectedTitle) 5)

/-- `find_and_cite_reference`.  The two HTTP collaborators are oracles;
`citeOracle` stands for `get_apa_citation_from_doi`. -/
def find_and_cite_reference (referenceText : String) (expectedTitle : Option String)
    (mailtoEmail : Option String)
    (searchOracle : ApiParams → Option (List WorkItem))
    (citeOracle : String → Option String) : Except PyErr FCRResult :=
  let parsedAuthors := parse_authors_from_reference referenceText
  let parsedYear := parse_year_from_reference referenceText
  let titleToMatch := fac_title_to_match referenceText expectedTitle
  match search_crossref_api (.dict (fac_search_params referenceText expectedTitle)) 5
      mailtoEmail searchOracle with
  | none => .ok (.noResults (String.mk (referenceText.data.take 100)))
  | some [] => .ok (.noResults (String.mk (referenceText.data.take 100)))
  | some items =>
    -- lines 269-273
    let normalizedInput := if !titleToMatch.isEmpty then normalizeTitle titleToMatch else ""
    let f := scoreItem parsedAuthors parsedYear normalizedInput (optStrTruthy expectedTitle)
    match (selectBest f items).1 with
    | none => .ok (.noConfidentMatch referenceText titleToMatch)
    | some best =>
      let score := f best
      if CONFIDENCE_THRESHOLD ≤ score then
        if optStrTruthy best.doi then
          let d := best.doi.getD ""
          match citeOracle d with
          | some c =>
            if !c.isEmpty then do
              -- line 370 evaluates api_title before returning the citation
              let _ ← titleHeadE best
              .ok (.resolved c)
            else do
              let t ← titleHeadE best
              .ok (.matchedButCitationUnavailable d score t)
          | none => do
            let t ← titleHeadE best
            .ok (.matchedButCitationUnavailable d score t)
        else .ok (.noDoiOnHighConfidenceMatch score)
      else do
        let t ← titleHeadE best
        .ok (.lowConfidence referenceText titleToMatch score t)

/-! ## `get_new_works` (source lines 483-549) -/

/-- Line 522-526: the date-filter clause markers whose presence at the
head of an existing filter clause makes it conflicting. -/
def dateBoundMarkers : List String :=
  ["from-created-date", "until-created-date",
   "from-update-date", "until-update-date",
   "from-index-date", "until-index-date",
   "from-pub-date", "until-pub-date",
   "from-deposit-date", "until-deposit-date"]

/-- `s` begins with `pre` (character-wise). -/
def strStarts (pre s : String) : Bool := litAt s.data pre.data 0

/-- Python `str.split(',')`. -/
def splitOnCommaL : List Char → List (List Char)
  | [] => [[]]
  | c :: rest =>
    if c = ',' then [] :: splitOnCommaL rest
    else
      match splitOnCommaL rest with
      | [] => [[c]]
      | g :: gs => (c :: g) :: gs

/-- Python `str.split(',')` on strings. -/
def splitOnCommaS (s : String) : List String := (splitOnCommaL s.data).map String.mk

/-- Line 540-544 (`sort_field_map`); `get_new_works` only evaluates it
on the three recognized kinds. -/
def sortFieldMap (dateType : String) : String :=
  if dateType = "from-created-date" then "created"
  else if dateType = "from-update-date" then "updated"
  else "indexed"

/-- Lines 510-546: the augmented criteria `get_new_works` builds (on a
copy): conflicting date clauses removed from the `filter` key, the new
`from-<kind>-date` clause appended, and a default sort installed when
the caller gave none. -/
def get_new_works_augment (sp : SearchParams) (sinceDatetimeStr dateType : String) :
    SearchParams :=
  let newDateFilter := dateType ++ ":" ++ sinceDatetimeStr
  let existing := sp.filter.getD ""
  let sp :=
    if !existing.isEmpty then
      let cleaned := (splitOnCommaS existing).filter fun f =>
        !(dateBoundMarkers.any fun pre => strStarts pre f)
      { sp with filter := some (String.intercalate "," (cleaned ++ [newDateFilter])) }
    else { sp with filter := some newDateFilter }
  if sp.sort.isSome then sp
  else { sp with sort := some (sortFieldMap dateType), order := some "asc" }

/-- `get_new_works`. -/
def get_new_works (input : PyParams) (sinceDatetimeStr dateType : String)
    (rows : Int) (mailtoEmail : Option String)
    (searchOracle : ApiParams → Option (List WorkItem)) :
    Option (List WorkItem) :=
  match input with
  | .dict sp =>
    if !(["from-created-date", "from-update-date", "from-index-date"].contains dateType) then
      none
    else
      search_crossref_api
        (.dict (get_new_works_augment sp sinceDatetimeStr dateType)) rows
        mailtoEmail searchOracle
  | _ => none

/-! ## Spec-side definitions

These follow the wording of the specification / claims, to be compared
with the source-side definitions above. -/

/-- Spec-side: the candidate's family names, lower-cased. -/
def familyNamesLower (itemAuthors : List AuthorRec) : List String :=
  itemAuthors.filterMap fun a =>
    if optStrTruthy a.family then some (String.mk (pyLower (a.family.getD "").data))
    else none

/-- Spec-side: the count of parsed surnames found, case-insensitively,
among the candidate's family names. -/
def countSurnamesFound (parsedAuthors : List String) (itemAuthors : List AuthorRec) : Nat :=
  (parsedAuthors.map fun pa => String.mk (pyLower pa.data)).countP
    (· ∈ familyNamesLower itemAuthors)

/-- Spec-side author score, following the claim's wording: neutral `0.5`
when the reference yielded no parsed authors; `0.0` when the reference
has authors but the candidate lists none; otherwise the fraction of
parsed surnames found among the candidate's family names. -/
def authorScoreSpec (parsedAuthors : List String) (itemAuthors : List AuthorRec) : ℚ :=
  if parsedAuthors = [] then 1 / 2
  else if itemAuthors = [] then 0
  else (countSurnamesFound parsedAuthors itemAuthors : ℚ) / parsedAuthors.length

/-- Spec-side (claim C2): a standalone 4-digit number at index `i` whose
value lies strictly between 1700 and 2100 and whose immediately
preceding character is not a digit. -/
def survivingFallback (l : List Char) (i : Nat) : Bool :=
  boundYearAt l i &&
  decide (1700 < digitsVal (yearChars l i)) &&
  decide (digitsVal (yearChars l i) < 2100) &&
  (decide (i = 0) || !(atc l (i - 1)).isDigit)

/-! ## Out-of-range lemmas for the year patterns -/

theorem atc_oob {l : List Char} {i : Nat} (h : l.length ≤ i) : atc l i = nullChar := by
  simp [atc, List.getD, List.getElem?_eq_none h]

theorem parenYearAt_lt_length {l : List Char} {i : Nat}
    (h : parenYearAt l i = true) : i < l.length := by
  by_contra hge
  rw [parenYearAt, atc_oob (Nat.le_of_not_lt hge)] at h
  simp [nullChar] at h

theorem parenYearAt_oob {l : List Char} {i : Nat} (h : l.length ≤ i) :
    parenYearAt l i = false := by
  by_contra hc
  exact absurd (parenYearAt_lt_length (by simpa using hc)) (Nat.not_lt.mpr h)

theorem boundYearAt_lt_length {l : List Char} {i : Nat}
    (h : boundYearAt l i = true) : i < l.length := by
  by_contra hge
  rw [boundYearAt, fourDigitsAt, atc_oob (Nat.le_of_not_lt hge)] at h
  simp [nullChar] at h

/-! ## Claim C8: the row clamp -/

theorem build_api_params_rows (sp : SearchParams) (r : Int) :
    (build_api_params sp r).rows = max 1 (min r 1000) := rfl

/-- Claim C8: for every criteria mapping and every integer `rowLimit`,
the `rows` parameter equals `rowLimit` clamped to `[1, 1000]`; in
particular `0 ↦ 1`, `5000 ↦ 1000`, `10 ↦ 10`. -/
theorem rows_clamped (sp : SearchParams) (r : Int) :
    (build_api_params sp r).rows = max 1 (min r 1000) ∧
    1 ≤ (build_api_params sp r).rows ∧ (build_api_params sp r).rows ≤ 1000 ∧
    (build_api_params sp 0).rows = 1 ∧
    (build_api_params sp 5000).rows = 1000 ∧
    (build_api_params sp 10).rows = 10 := by
  refine ⟨rfl, ?_, ?_, rfl, rfl, rfl⟩ <;> rw [build_api_params_rows] <;> omega

/-! ## Claim C9: input validation of `get_new_works` -/

/-- Claim C9: a non-dict criteria argument or an unrecognized
`date_type` makes `get_new_works` return the failure value `none`
synchronously, for every transport oracle (so no search request is
issued). -/
theorem get_new_works_rejects_bad_input (input : PyParams)
    (since dt : String) (rows : Int) (m : Option String)
    (h : (∀ sp, input ≠ .dict sp) ∨
      dt ∉ ["from-created-date", "from-update-date", "from-index-date"]) :
    ∀ searchOracle, get_new_works input since dt rows m searchOracle = none := by
  intro searchOracle
  match input with
  | .str s => rfl
  | .other => rfl
  | .dict sp =>
    rcases h with h | h
    · exact absurd rfl (h sp)
    · have hc : (["from-created-date", "from-update-date",
          "from-index-date"].contains dt) = false :=
        Bool.eq_false_iff.mpr fun hc => h (List.elem_iff.mp hc)
      simp only [get_new_works, hc, Bool.not_false, if_true]

theorem get_new_works_rejects_bad_input_witness :
    ((∀ sp, PyParams.dict {} ≠ .dict sp) ∨
      "invalid" ∉ ["from-created-date", "from-update-date", "from-index-date"]) ∧
    ∀ searchOracle, get_new_works (.dict {}) "2024-01-01T00:00:00Z" "invalid" 20 none
      searchOracle = none := by
  refine ⟨Or.inr (by decide), ?_⟩
  exact get_new_works_rejects_bad_input (.dict {}) "2024-01-01T00:00:00Z" "invalid" 20 none
    (Or.inr (by decide))

/-! ## Claim C1: the incremental date filter -/

/-- Claim C1 (code bug): `get_new_works` does place the single clause
`from-index-date:<ts>` into the `filter` key of the augmented criteria,
but `_build_api_params` never reads that key, so the parameter set the
search request is ultimately issued with carries no filter at all — the
date bound is silently dropped. -/
theorem get_new_works_date_filter_dropped :
    (get_new_works_augment {} "2024-01-01T00:00:00Z" "from-index-date").filter
      = some "from-index-date:2024-01-01T00:00:00Z" ∧
    (build_api_params
        (get_new_works_augment {} "2024-01-01T00:00:00Z" "from-index-date") 20).filter
      = none ∧
    ∀ m searchOracle,
      get_new_works (.dict {}) "2024-01-01T00:00:00Z" "from-index-date" 20 m searchOracle
        = searchOracle (withMailto m (build_api_params
            (get_new_works_augment {} "2024-01-01T00:00:00Z" "from-index-date") 20)) := by
  exact ⟨rfl, rfl, fun m o => rfl⟩

/-! ## Claim C5: the author score -/

/-- Claim C5: the author component of the confidence score matches the
spec's three cases: fraction of parsed surnames found among candidate
family names; neutral `0.5` without parsed authors; `0.0` when the
candidate lists no authors. -/
theorem author_score_matches_spec (pa : List String) (ia : List AuthorRec) :
    authorScore pa ia = authorScoreSpec pa ia := by
  cases pa with
  | nil => simp [authorScore, authorScoreSpec]
  | cons p ps =>
    cases ia with
    | nil => simp [authorScore, authorScoreSpec]
    | cons a as =>
      simp [authorScore, authorScoreSpec, countSurnamesFound, familyNamesLower]

/-! ## Claim C6: the parenthesized year -/

/-- Claim C6: whenever the reference contains `\((\d{4})\)`, the first
(leftmost) such occurrence is returned as the year, without reaching the
bare-number fallback. -/
theorem parse_year_paren_first (s : String) (i : Nat)
    (hp : parenYearAt s.data i = true)
    (hleast : ∀ j, j < i → parenYearAt s.data j = false) :
    parse_year_from_reference s = some (String.mk (yearChars s.data (i + 1))) := by
  have hin : i < s.data.length := parenYearAt_lt_length hp
  unfold parse_year_from_reference
  rw [scanFirst_of_first 0 (Nat.zero_le i) hin hp hleast]

theorem parse_year_paren_first_witness :
    parenYearAt "Shannon (1948). x".data 8 = true ∧
    parse_year_from_reference "Shannon (1948). x" = some "1948" := by
  refine ⟨by decide, ?_⟩
  have h := parse_year_paren_first "Shannon (1948). x" 8 (by decide)
    (fun j hj => by interval_cases j <;> decide)
  simpa using h

/-! ## Claim C3: the title similarity

The reflexivity half: when `a = b`, the DP best block is always
diagonal (any matching run ending off the diagonal is dominated by the
run ending at the diagonal cell with the smaller coordinate, which is
scanned earlier), and the extension loops then widen a diagonal block to
the whole string, so `ratio(a, a) = 1`. -/

theorem endRun_le_succ (a b : List Char) (pop junk : Char → Bool) (alo blo : Nat) :
    ∀ i j, endRun a b pop junk alo blo i j ≤ i + 1 := by
  intro i
  induction i with
  | zero => intro j; rw [endRun]; split <;> omega
  | succ i ih =>
    intro j
    rw [endRun]
    split
    · split
      · exact Nat.succ_le_succ (ih (j - 1))
      · omega
    · omega

theorem dpMatch_iff {a b : List Char} {pop junk : Char → Bool} {i j : Nat} :
    dpMatch a b pop junk i j = true ↔
      i < a.length ∧ j < b.length ∧ atc a i = atc b j ∧
        junk (atc b j) = false ∧ pop (atc b j) = false := by
  simp [dpMatch, and_assoc, Bool.not_eq_true']

theorem dpMatch_diag {l : List Char} {pop junk : Char → Bool} {i j : Nat}
    (h : dpMatch l l pop junk i j = true) :
    dpMatch l l pop junk (min i j) (min i j) = true := by
  obtain ⟨hi, hj, heq, hjk, hpk⟩ := dpMatch_iff.mp h
  have hceq : atc l (min i j) = atc l j := by
    rcases Nat.le_total i j with hle | hle
    · rw [min_eq_left hle]; exact heq
    · rw [min_eq_right hle]
  exact dpMatch_iff.mpr ⟨by omega, by omega, rfl,
    by rw [hceq]; exact hjk, by rw [hceq]; exact hpk⟩

theorem endRun_zero (a b : List Char) (pop junk : Char → Bool) (alo blo j : Nat) :
    endRun a b pop junk alo blo 0 j =
      if dpMatch a b pop junk 0 j then 1 else 0 := rfl

theorem endRun_succ (a b : List Char) (pop junk : Char → Bool) (alo blo i j : Nat) :
    endRun a b pop junk alo blo (i + 1) j =
      if dpMatch a b pop junk (i + 1) j then
        if alo < i + 1 ∧ blo < j then endRun a b pop junk alo blo i (j - 1) + 1
        else 1
      else 0 := rfl

theorem endRun_le_diag (l : List Char) (pop junk : Char → Bool) :
    ∀ i j, endRun l l pop junk 0 0 i j ≤
      endRun l l pop junk 0 0 (min i j) (min i j) := by
  intro i
  induction i with
  | zero =>
    intro j
    rw [Nat.zero_min, endRun_zero, endRun_zero]
    by_cases hm : dpMatch l l pop junk 0 j = true
    · have h0 : dpMatch l l pop junk 0 0 = true := by
        have := dpMatch_diag hm
        rwa [Nat.zero_min] at this
      rw [if_pos hm, if_pos h0]
    · rw [if_neg (by simpa using hm)]
      omega
  | succ i ih =>
    intro j
    match j with
    | 0 =>
      rw [Nat.min_zero, endRun_succ, endRun_zero]
      by_cases hm : dpMatch l l pop junk (i + 1) 0 = true
      · have h0 : dpMatch l l pop junk 0 0 = true := by
          have := dpMatch_diag hm
          rwa [Nat.min_zero] at this
        rw [if_pos hm, if_pos h0, if_neg (by omega : ¬(0 < i + 1 ∧ 0 < 0))]
      · rw [if_neg (by simpa using hm)]
        omega
    | j + 1 =>
      have hmin : min (i + 1) (j + 1) = min i j + 1 := by omega
      rw [hmin, endRun_succ, endRun_succ]
      by_cases hm : dpMatch l l pop junk (i + 1) (j + 1) = true
      · have h0 : dpMatch l l pop junk (min i j + 1) (min i j + 1) = true := by
          have := dpMatch_diag hm
          rwa [hmin] at this
        rw [if_pos hm, if_pos h0,
          if_pos (by omega : (0 : Nat) < i + 1 ∧ 0 < j + 1),
          if_pos (by omega : (0 : Nat) < min i j + 1 ∧ 0 < min i j + 1)]
        rw [show j + 1 - 1 = j from rfl, show min i j + 1 - 1 = min i j from rfl]
        exact Nat.succ_le_succ (ih j)
      · rw [if_neg (by simpa using hm)]
        omega

/-- Invariant of the inner DP row scan when `a = b = l`: starting from a
diagonal state that fits inside `[0, n)` and dominates every diagonal
cell scanned so far, the row scan preserves all three properties. -/
theorem flmScanJ_diag (l : List Char) (pop junk : Char → Bool) (n i : Nat)
    (hin : i < n) :
    ∀ fuel j st, fuel = n - j → st.1 = st.2.1 → st.1 + st.2.2 ≤ n →
      (∀ m, (m < i ∨ (m = i ∧ m < j)) → endRun l l pop junk 0 0 m m ≤ st.2.2) →
      (flmScanJ l l pop junk 0 0 i fuel j st).1 =
          (flmScanJ l l pop junk 0 0 i fuel j st).2.1 ∧
        (flmScanJ l l pop junk 0 0 i fuel j st).1 +
          (flmScanJ l l pop junk 0 0 i fuel j st).2.2 ≤ n ∧
        (∀ m, (m < i ∨ (m = i ∧ m < n)) →
          endRun l l pop junk 0 0 m m ≤ (flmScanJ l l pop junk 0 0 i fuel j st).2.2) := by
  intro fuel
  induction fuel with
  | zero =>
    intro j st hfuel hA hB hC
    refine ⟨hA, hB, fun m hm => hC m ?_⟩
    rcases hm with hm | ⟨rfl, hm⟩
    · exact Or.inl hm
    · exact Or.inr ⟨rfl, by omega⟩
  | succ f ih =>
    intro j st hfuel hA hB hC
    rw [flmScanJ]
    by_cases hupd : st.2.2 < endRun l l pop junk 0 0 i j
    · -- an update forces the cell onto the diagonal
      have hij : i = j := by
        by_contra hne
        have h1 := endRun_le_diag l pop junk i j
        have h2 : endRun l l pop junk 0 0 (min i j) (min i j) ≤ st.2.2 := by
          rcases Nat.lt_or_ge j i with hlt | hge
          · exact hC (min i j) (Or.inl (by omega))
          · exact hC (min i j) (Or.inr ⟨by omega, by omega⟩)
        omega
      subst hij
      rw [if_pos hupd]
      apply ih (i + 1) _ (by omega) rfl
        (by
          have := endRun_le_succ l l pop junk 0 0 i i
          simp only
          omega)
      intro m hm
      rcases hm with hm | ⟨rfl, hm⟩
      · have := hC m (Or.inl hm)
        simp only
        omega
      · simp only
        omega
    · rw [if_neg hupd]
      apply ih (j + 1) _ (by omega) hA hB
      intro m hm
      rcases hm with hm | ⟨rfl, hm⟩
      · exact hC m (Or.inl hm)
      · rcases Nat.lt_or_ge m j with hlt | hge
        · exact hC m (Or.inr ⟨rfl, hlt⟩)
        · have hmj : m = j := by omega
          subst hmj
          omega

/-- Invariant of the outer DP scan when `a = b = l`. -/
theorem flmScanI_diag (l : List Char) (pop junk : Char → Bool) (n : Nat) :
    ∀ fuel i st, fuel = n - i → st.1 = st.2.1 → st.1 + st.2.2 ≤ n →
      (∀ m, m < i → endRun l l pop junk 0 0 m m ≤ st.2.2) →
      (flmScanI l l pop junk 0 0 n fuel i st).1 =
          (flmScanI l l pop junk 0 0 n fuel i st).2.1 ∧
        (flmScanI l l pop junk 0 0 n fuel i st).1 +
          (flmScanI l l pop junk 0 0 n fuel i st).2.2 ≤ n := by
  intro fuel
  induction fuel with
  | zero =>
    intro i st _ hA hB _
    exact ⟨hA, hB⟩
  | succ f ih =>
    intro i st hfuel hA hB hC
    rw [flmScanI]
    have hin : i < n := by omega
    obtain ⟨hA', hB', hC'⟩ := flmScanJ_diag l pop junk n i hin (n - 0) 0 st
      (by omega) hA hB (fun m hm => by
        rcases hm with hm | ⟨_, hm⟩
        · exact hC m hm
        · omega)
    apply ih (i + 1) _ (by omega) hA' hB'
    intro m hm
    rcases Nat.lt_or_ge m i with hlt | hge
    · exact hC' m (Or.inl hlt)
    · have : m = i := by omega
      subst this
      exact hC' m (Or.inr ⟨rfl, hin⟩)

theorem extLeft_diag_run (l : List Char) :
    ∀ d bs, extLeft l l (fun _ => false) 0 0 d d bs = (0, 0, bs + d) := by
  intro d
  induction d with
  | zero =>
    intro bs
    rw [extLeft]
    rfl
  | succ d ih =>
    intro bs
    rw [extLeft, if_pos ⟨by omega, by omega, rfl, rfl⟩]
    rw [show d + 1 - 1 = d from rfl, ih (bs + 1)]
    rw [show bs + 1 + d = bs + (d + 1) by omega]

theorem extRightAux_diag_run (l : List Char) (n : Nat) :
    ∀ fuel bs, bs ≤ n → fuel = n - bs →
      extRightAux l l (fun _ => false) n n 0 0 fuel bs = (0, 0, n) := by
  intro fuel
  induction fuel with
  | zero =>
    intro bs h1 h2
    have hbs : bs = n := by omega
    subst hbs
    rfl
  | succ f ih =>
    intro bs h1 h2
    rw [extRightAux, if_pos ⟨by omega, by omega, rfl, rfl⟩]
    exact ih (bs + 1) (by omega) (by omega)

theorem extLeft_stop (a b : List Char) (junk : Char → Bool) (alo blo bj bs : Nat) :
    extLeft a b junk alo blo alo bj bs = (alo, bj, bs) := by
  match alo with
  | 0 => rw [extLeft]
  | a' + 1 => rw [extLeft, if_neg (fun hc => absurd hc.1 (Nat.lt_irrefl _))]

theorem extLeftJunk_stop (a b : List Char) (junk : Char → Bool) (alo blo bj bs : Nat) :
    extLeftJunk a b junk alo blo alo bj bs = (alo, bj, bs) := by
  match alo with
  | 0 => rw [extLeftJunk]
  | a' + 1 => rw [extLeftJunk, if_neg (fun hc => absurd hc.1 (Nat.lt_irrefl _))]

theorem extRight_stop (a b : List Char) (junk : Char → Bool) (ahi bhi bj bs : Nat) :
    extRight a b junk ahi bhi ahi bj bs = (ahi, bj, bs) := by
  rw [extRight, show ahi - (ahi + bs) = 0 by omega, extRightAux]

theorem extRightJunk_stop (a b : List Char) (junk : Char → Bool) (ahi bhi bj bs : Nat) :
    extRightJunk a b junk ahi bhi ahi bj bs = (ahi, bj, bs) := by
  rw [extRightJunk, show ahi - (ahi + bs) = 0 by omega, extRightJunkAux]

/-- On an empty slice, `find_longest_match` returns the empty block. -/
theorem flm_empty (a b : List Char) (pop junk : Char → Bool) (alo blo : Nat) :
    find_longest_match a b pop junk alo alo blo blo = (alo, blo, 0) := by
  simp only [find_longest_match, Nat.sub_self, flmScanI, extLeft_stop,
    extRight_stop, extLeftJunk_stop, extRightJunk_stop]

theorem matchTotal_empty (a b : List Char) (pop junk : Char → Bool) :
    ∀ fuel alo blo, matchTotal a b pop junk fuel alo alo blo blo = 0 := by
  intro fuel alo blo
  match fuel with
  | 0 => rfl
  | fuel + 1 => simp [matchTotal, flm_empty]

/-- For `a = b`, `find_longest_match` on the full range returns the
whole string as a single block: the DP result is diagonal and fits, and
the two non-junk extension loops then widen it to the whole string. -/
theorem flm_self (l : List Char) (pop : Char → Bool) :
    find_longest_match l l pop (fun _ => false) 0 l.length 0 l.length
      = (0, 0, l.length) := by
  obtain ⟨hA, hB⟩ := flmScanI_diag l pop (fun _ => false) l.length
    (l.length - 0) 0 (0, 0, 0) rfl rfl (Nat.zero_le _) (fun m hm => by omega)
  simp only [find_longest_match]
  set S := flmScanI l l pop (fun _ => false) 0 0 l.length (l.length - 0) 0 (0, 0, 0)
    with hS
  rw [← hA, extLeft_diag_run l S.1 S.2.2]
  dsimp only
  rw [extRight, show l.length - (0 + (S.2.2 + S.1)) = l.length - (S.2.2 + S.1) by omega,
    extRightAux_diag_run l l.length (l.length - (S.2.2 + S.1)) (S.2.2 + S.1)
      (by omega) rfl]
  dsimp only
  rw [extLeftJunk, extRightJunk, show l.length - (0 + l.length) = 0 by omega,
    extRightJunkAux]

theorem matchTotal_self (l : List Char) (pop : Char → Bool) (F : Nat) :
    matchTotal l l pop (fun _ => false) (F + 1) 0 l.length 0 l.length
      = l.length := by
  rw [matchTotal]
  simp only [flm_self]
  by_cases hn : l.length = 0
  · rw [if_pos hn, hn]
  · rw [if_neg hn]
    show matchTotal l l pop (fun _ => false) F 0 0 0 0 + l.length +
        matchTotal l l pop (fun _ => false) F (0 + l.length) l.length
          (0 + l.length) l.length = l.length
    rw [Nat.zero_add, matchTotal_empty, matchTotal_empty]
    omega

theorem ratioQ_self (l : List Char) (h : l ≠ []) : ratioQ l l = 1 := by
  have hn : l.length ≠ 0 := by simpa using h
  rw [ratioQ, if_neg (by omega), matchTotal_self l _ (l.length + l.length)]
  have hq : (l.length : ℚ) + (l.length : ℚ) ≠ 0 := by
    exact_mod_cast (show (l.length + l.length : ℕ) ≠ 0 by omega)
  rw [div_eq_one_iff_eq hq]
  ring

set_option maxRecDepth 8000 in
/-- Claim C3 is false as stated: `SequenceMatcher.ratio` is not
symmetric.  `"xqabcdyz"` and `"cdwyzxab"` are fixed points of the
scorer's normalization, yet the ratio is `3/8` one way and `1/2` the
other (checked against CPython's `difflib`). -/
theorem title_similarity_not_symmetric :
    titleSimilarity "xqabcdyz" "cdwyzxab" ≠ titleSimilarity "cdwyzxab" "xqabcdyz" := by
  have hM1 : matchTotal ['x','q','a','b','c','d','y','z'] ['c','d','w','y','z','x','a','b']
      (popularB ['c','d','w','y','z','x','a','b']) (fun _ => false) 17 0 8 0 8 = 3 := rfl
  have hM2 : matchTotal ['c','d','w','y','z','x','a','b'] ['x','q','a','b','c','d','y','z']
      (popularB ['x','q','a','b','c','d','y','z']) (fun _ => false) 17 0 8 0 8 = 4 := rfl
  have h1 : titleSimilarity "xqabcdyz" "cdwyzxab" = 2 * (3 : ℚ) / 16 := by
    rw [titleSimilarity, ratioQ]
    norm_num [hM1]
  have h2 : titleSimilarity "cdwyzxab" "xqabcdyz" = 2 * (4 : ℚ) / 16 := by
    rw [titleSimilarity, ratioQ]
    norm_num [hM2]
  rw [h1, h2]
  norm_num

/-- Claim C3 amended: the similarity is reflexive — `ratio` over equal
normalized strings is exactly `1.0` for every non-empty string (the
symmetry half of the claim is refuted by
`title_similarity_not_symmetric`). -/
theorem title_similarity_self (a : String) (h : a ≠ "") :
    titleSimilarity a a = 1 := by
  apply ratioQ_self
  intro hd
  exact h (by cases a; simp_all)

theorem title_similarity_self_witness :
    "abc" ≠ "" ∧ titleSimilarity "abc" "abc" = 1 :=
  ⟨by decide, title_similarity_self "abc" (by decide)⟩

/-- Claim C2 is false as stated: only the first `\b(\d{4})\b` match is
ever examined.  In `"1234 1999"` the candidate `1999` survives every
rejection rule of the claim, yet the function returns `none` because the
first standalone 4-digit number, `1234`, fails the plausibility range. -/
theorem parse_year_fallback_counterexample :
    (∀ j, parenYearAt "1234 1999".data j = false) ∧
    survivingFallback "1234 1999".data 5 = true ∧
    parse_year_from_reference "1234 1999" = none := by
  refine ⟨?_, by decide, by decide⟩
  intro j
  by_cases hj : j < 9
  · interval_cases j <;> decide
  · have h9 : ("1234 1999" : String).data.length = 9 := rfl
    exact parenYearAt_oob (h9 ▸ Nat.le_of_not_lt hj)

/-! ## Claim C2 (amended): only the first bare match is examined -/

theorem boundYearAt_iff {l : List Char} {i : Nat} :
    boundYearAt l i = true ↔
      (i = 0 ∨ pyWord (atc l (i - 1)) = false) ∧ fourDigitsAt l i = true ∧
        pyWord (atc l (i + 4)) = false := by
  simp [boundYearAt, Bool.not_eq_true', and_assoc]

/-- The digit-rejection branch of the fallback (source lines 437-439)
can never fire: a `\b` boundary before the first digit already rules
out a preceding digit, since digits are word characters. -/
theorem boundYear_no_digit_before {l : List Char} {i : Nat}
    (h : boundYearAt l i = true) (hi : 1 ≤ i) :
    (atc l (i - 1)).isDigit = false := by
  obtain ⟨hb, _, _⟩ := boundYearAt_iff.mp h
  rcases hb with rfl | hb
  · omega
  · by_contra hd
    have hd' : (atc l (i - 1)).isDigit = true := by simpa using hd
    have : pyWord (atc l (i - 1)) = true := by
      simp [pyWord, Char.isAlphanum, hd']
    rw [this] at hb
    cases hb

/-- Claim C2 amended: on references with no parenthesized 4-digit
number, only the **first** standalone `\b(\d{4})\b` match is examined:
a year comes back exactly when that first match's value lies strictly
between 1700 and 2100, and the returned year is that first match.  (The
claim's preceding-digit rejection is provably dead code, so it does not
appear in the characterization.) -/
theorem parse_year_fallback_first_only (s : String) (y : String)
    (hnoparen : ∀ j, parenYearAt s.data j = false) :
    parse_year_from_reference s = some y ↔
      ∃ i, boundYearAt s.data i = true ∧
        (∀ j, j < i → boundYearAt s.data j = false) ∧
        1700 < digitsVal (yearChars s.data i) ∧
        digitsVal (yearChars s.data i) < 2100 ∧
        y = String.mk (yearChars s.data i) := by
  have hparen : scanFirst (fun i => parenYearAt s.data i) s.data.length 0 = none := by
    cases hsc : scanFirst (fun i => parenYearAt s.data i) s.data.length 0 with
    | none => rfl
    | some mx =>
      have := (scanFirst_eq_some hsc).2.2.1
      rw [hnoparen mx] at this
      cases this
  rw [parse_year_from_reference, hparen]
  cases hbound : scanFirst (fun i => boundYearAt s.data i) s.data.length 0 with
  | none =>
    constructor
    · intro h; cases h
    · rintro ⟨i, hb, -, -, -, -⟩
      have := scanFirst_eq_none 0 hbound i (Nat.zero_le i) (boundYearAt_lt_length hb)
      rw [hb] at this
      cases this
  | some i =>
    obtain ⟨-, hin, hbi, hleast⟩ := scanFirst_eq_some hbound
    have hnodig : (1 ≤ i && (atc s.data (i - 1)).isDigit) = false := by
      by_cases h1 : 1 ≤ i
      · simp [boundYear_no_digit_before hbi h1]
      · simp [show ¬ (1 ≤ i) from h1]
    dsimp only
    rw [hnodig]
    simp only [Bool.false_eq_true, if_false]
    constructor
    · intro h
      by_cases hrange : (decide (1700 < digitsVal (yearChars s.data i)) &&
          decide (digitsVal (yearChars s.data i) < 2100)) = true
      · rw [if_pos hrange] at h
        simp only [Bool.and_eq_true, decide_eq_true_eq] at hrange
        exact ⟨i, hbi, fun j hj => hleast j (Nat.zero_le j) hj, hrange.1, hrange.2,
          by cases h; rfl⟩
      · rw [if_neg (by simpa using hrange)] at h
        cases h
    · rintro ⟨i', hb', hleast', h17, h21, rfl⟩
      have hii : i' = i := by
        by_contra hne
        rcases Nat.lt_or_ge i' i with hlt | hge
        · rw [hleast i' (Nat.zero_le i') hlt] at hb'; cases hb'
        · have : i < i' := by omega
          rw [hleast' i this] at hbi; cases hbi
      subst hii
      rw [if_pos (by simp [h17, h21])]

theorem parse_year_fallback_first_only_witness :
    (∀ j, parenYearAt "in 1999".data j = false) ∧
    (parse_year_from_reference "in 1999" = some "1999" ↔
      ∃ i, boundYearAt "in 1999".data i = true ∧
        (∀ j, j < i → boundYearAt "in 1999".data j = false) ∧
        1700 < digitsVal (yearChars "in 1999".data i) ∧
        digitsVal (yearChars "in 1999".data i) < 2100 ∧
        "1999" = String.mk (yearChars "in 1999".data i)) := by
  have hnp : ∀ j, parenYearAt "in 1999".data j = false := by
    intro j
    by_cases hj : j < 7
    · interval_cases j <;> decide
    · have h7 : ("in 1999" : String).data.length = 7 := rfl
      exact parenYearAt_oob (h7 ▸ Nat.le_of_not_lt hj)
  exact ⟨hnp, parse_year_fallback_first_only "in 1999" "1999" hnp⟩

/-! ## Claim C4: the selected candidate is the first maximum -/

/-- Out-of-range default for list indexing in the statements below. -/
def dfltItem : WorkItem := {}

theorem getD_mem {l : List WorkItem} {j : Nat} (h : j < l.length) :
    l.getD j dfltItem ∈ l := by
  rw [List.getD_eq_getElem?_getD, List.getElem?_eq_getElem h]
  exact List.getElem_mem h

theorem selectLoop_all_le (f : WorkItem → ℚ) :
    ∀ (its : List WorkItem) (b : Option WorkItem) (hi : ℚ),
      (∀ it ∈ its, f it ≤ hi) → selectLoop f its (b, hi) = (b, hi) := by
  intro its
  induction its with
  | nil => intro b hi _; rfl
  | cons it rest ih =>
    intro b hi hall
    rw [selectLoop, if_neg (not_lt.mpr (hall it (List.mem_cons_self it rest)))]
    exact ih b hi fun x hx => hall x (List.mem_cons_of_mem _ hx)

/-- The selection scan, characterized: if some item beats the running
maximum, the final best is the first item attaining the overall
maximum. -/
theorem selectLoop_found (f : WorkItem → ℚ) :
    ∀ (its : List WorkItem) (b : Option WorkItem) (hi : ℚ),
      (∃ it ∈ its, hi < f it) →
      ∃ i, i < its.length ∧ hi < f (its.getD i dfltItem) ∧
        selectLoop f its (b, hi) =
          (some (its.getD i dfltItem), f (its.getD i dfltItem)) ∧
        (∀ j, j < its.length →
          f (its.getD j dfltItem) ≤ f (its.getD i dfltItem)) ∧
        (∀ j, j < i → f (its.getD j dfltItem) < f (its.getD i dfltItem)) := by
  intro its
  induction its with
  | nil =>
    rintro b hi ⟨it, hmem, -⟩
    cases hmem
  | cons it rest ih =>
    intro b hi hex
    rw [selectLoop]
    by_cases hcase : hi < f it
    · rw [if_pos hcase]
      by_cases hrest : ∃ x ∈ rest, f it < f x
      · obtain ⟨i', hlen', hgt', heq', hmax', hfirst'⟩ := ih (some it) (f it) hrest
        refine ⟨i' + 1, Nat.succ_lt_succ hlen', ?_, ?_, ?_, ?_⟩
        · rw [List.getD_cons_succ]
          exact lt_trans hcase hgt'
        · rw [List.getD_cons_succ]
          exact heq'
        · intro j hj
          match j with
          | 0 =>
            rw [List.getD_cons_zero, List.getD_cons_succ]
            exact le_of_lt hgt'
          | j + 1 =>
            rw [List.getD_cons_succ, List.getD_cons_succ]
            exact hmax' j (by simpa using hj)
        · intro j hj
          match j with
          | 0 =>
            rw [List.getD_cons_zero, List.getD_cons_succ]
            exact hgt'
          | j + 1 =>
            rw [List.getD_cons_succ, List.getD_cons_succ]
            exact hfirst' j (by omega)
      · push_neg at hrest
        refine ⟨0, Nat.succ_pos _, ?_, ?_, ?_, ?_⟩
        · rw [List.getD_cons_zero]; exact hcase
        · rw [List.getD_cons_zero]
          exact selectLoop_all_le f rest (some it) (f it) hrest
        · intro j hj
          match j with
          | 0 => rw [List.getD_cons_zero]
          | j + 1 =>
            rw [List.getD_cons_succ, List.getD_cons_zero]
            exact hrest _ (getD_mem (by simpa using hj))
        · intro j hj; omega
    · rw [if_neg hcase]
      have hex' : ∃ x ∈ rest, hi < f x := by
        obtain ⟨x, hx, hgx⟩ := hex
        rcases List.mem_cons.mp hx with rfl | hx'
        · exact absurd hgx hcase
        · exact ⟨x, hx', hgx⟩
      obtain ⟨i', hlen', hgt', heq', hmax', hfirst'⟩ := ih b hi hex'
      refine ⟨i' + 1, Nat.succ_lt_succ hlen', ?_, ?_, ?_, ?_⟩
      · rw [List.getD_cons_succ]; exact hgt'
      · rw [List.getD_cons_succ]; exact heq'
      · intro j hj
        match j with
        | 0 =>
          rw [List.getD_cons_zero, List.getD_cons_succ]
          exact le_of_lt (lt_of_le_of_lt (not_lt.mp hcase) hgt')
        | j + 1 =>
          rw [List.getD_cons_succ, List.getD_cons_succ]
          exact hmax' j (by simpa using hj)
      · intro j hj
        match j with
        | 0 =>
          rw [List.getD_cons_zero, List.getD_cons_succ]
          exact lt_of_le_of_lt (not_lt.mp hcase) hgt'
        | j + 1 =>
          rw [List.getD_cons_succ, List.getD_cons_succ]
          exact hfirst' j (by omega)

theorem ratioQ_nonneg (a b : List Char) : 0 ≤ ratioQ a b := by
  rw [ratioQ]
  split
  · norm_num
  · exact div_nonneg (mul_nonneg (by norm_num) (Nat.cast_nonneg _))
      (add_nonneg (Nat.cast_nonneg _) (Nat.cast_nonneg _))

theorem authorScore_nonneg (pa : List String) (ia : List AuthorRec) :
    0 ≤ authorScore pa ia := by
  rw [authorScore]
  split
  · split
    · positivity
    · norm_num
  · split <;> norm_num

theorem scoreItem_nonneg (pa : List String) (py : Option String) (nt : String)
    (etp : Bool) (it : WorkItem) : 0 ≤ scoreItem pa py nt etp it := by
  simp only [scoreItem]
  apply add_nonneg (add_nonneg ?_ ?_) ?_
  · apply mul_nonneg (by split <;> norm_num)
    split
    · exact ratioQ_nonneg _ _
    · norm_num
  · exact mul_nonneg (by norm_num) (authorScore_nonneg _ _)
  · apply mul_nonneg (by split <;> norm_num)
    split
    · norm_num
    · split <;> norm_num

/-- Claim C4: with a non-empty candidate list, the item handed to the
decision block is one with the maximum overall score, and among tied
candidates the first in list order wins (the scan replaces the best
only on a strict improvement). -/
theorem best_candidate_is_first_max (pa : List String) (py : Option String)
    (nt : String) (etp : Bool) (items : List WorkItem) (hne : items ≠ []) :
    ∃ i, i < items.length ∧
      (selectBest (scoreItem pa py nt etp) items).1 = some (items.getD i dfltItem) ∧
      (∀ j, j < items.length →
        scoreItem pa py nt etp (items.getD j dfltItem) ≤
          scoreItem pa py nt etp (items.getD i dfltItem)) ∧
      (∀ j, j < i →
        scoreItem pa py nt etp (items.getD j dfltItem) <
          scoreItem pa py nt etp (items.getD i dfltItem)) := by
  match items, hne with
  | it :: rest, _ =>
    obtain ⟨i, hlen, -, heq, hmax, hfirst⟩ :=
      selectLoop_found (scoreItem pa py nt etp) (it :: rest) none (-1)
        ⟨it, List.mem_cons_self _ _,
          lt_of_lt_of_le (by norm_num) (scoreItem_nonneg pa py nt etp it)⟩
    refine ⟨i, hlen, ?_, hmax, hfirst⟩
    rw [selectBest, heq]

theorem best_candidate_is_first_max_witness :
    ([dfltItem] ≠ []) ∧
    ∃ i, i < [dfltItem].length ∧
      (selectBest (scoreItem [] none "" false) [dfltItem]).1
        = some ([dfltItem].getD i dfltItem) ∧
      (∀ j, j < [dfltItem].length →
        scoreItem [] none "" false ([dfltItem].getD j dfltItem) ≤
          scoreItem [] none "" false ([dfltItem].getD i dfltItem)) ∧
      (∀ j, j < i →
        scoreItem [] none "" false ([dfltItem].getD j dfltItem) <
          scoreItem [] none "" false ([dfltItem].getD i dfltItem)) :=
  ⟨List.cons_ne_nil dfltItem [],
    best_candidate_is_first_max [] none "" false [dfltItem] (List.cons_ne_nil dfltItem [])⟩

/-! ## Claim C10: reachable outcomes of `find_and_cite_reference` -/

/-- Claim C10 is false as stated: with a non-empty candidate list a best
match is indeed always selected, but the decision block then evaluates
`best_match_item.get('title', [""])[0]`, which raises `IndexError` when
the best candidate's `title` field is a present-but-empty list — the
call ends in an exception, not in one of the five outcome variants. -/
theorem find_and_cite_index_error :
    find_and_cite_reference "x" none none
        (fun _ => some [{ title := some [], doi := some "d" }]) (fun _ => some "c")
      = Except.error PyErr.indexError ∧
    ∀ r : FCRResult,
      find_and_cite_reference "x" none none
          (fun _ => some [{ title := some [], doi := some "d" }]) (fun _ => some "c")
        ≠ Except.ok r := by
  have hsel : selectLoop (scoreItem (parse_authors_from_reference "x")
      (parse_year_from_reference "x")
      (if !(fac_title_to_match "x" none).isEmpty then
        normalizeTitle (fac_title_to_match "x" none) else "")
      (optStrTruthy none))
      [{ title := some [], doi := some "d" }] (none, -1)
      = (some { title := some [], doi := some "d" },
        scoreItem (parse_authors_from_reference "x")
          (parse_year_from_reference "x")
          (if !(fac_title_to_match "x" none).isEmpty then
            normalizeTitle (fac_title_to_match "x" none) else "")
          (optStrTruthy none) { title := some [], doi := some "d" }) := by
    rw [selectLoop, if_pos (lt_of_lt_of_le (by norm_num)
      (scoreItem_nonneg _ _ _ _ _)), selectLoop]
  have h : find_and_cite_reference "x" none none
      (fun _ => some [{ title := some [], doi := some "d" }]) (fun _ => some "c")
      = Except.error PyErr.indexError := by
    simp only [find_and_cite_reference, search_crossref_api]
    unfold selectBest
    rw [hsel]
    dsimp only
    split <;> split <;> rfl
  exact ⟨h, fun r hr => by rw [h] at hr; cases hr⟩

/-- Claim C10 amended: a best match is always selected on a non-empty
list (every score is at least `0`, above the `-1.0` sentinel), so the
trailing no-confident-match return is unreachable; and provided no
returned candidate has a present-but-empty `title` list, every call
returns one of the five specified outcome variants (never an
exception, never the no-confident-match result). -/
theorem find_and_cite_outcomes (ref : String) (et m : Option String)
    (searchO : ApiParams → Option (List WorkItem)) (citeO : String → Option String)
    (htitle : ∀ p its, searchO p = some its → ∀ it ∈ its, it.title ≠ some []) :
    ∃ r : FCRResult,
      find_and_cite_reference ref et m searchO citeO = Except.ok r ∧
      ∀ a b, r ≠ FCRResult.noConfidentMatch a b := by
  simp only [find_and_cite_reference, search_crossref_api]
  cases hres : searchO (withMailto m (build_api_params (fac_search_params ref et) 5)) with
  | none => exact ⟨_, rfl, fun a b h => by cases h⟩
  | some its =>
    cases its with
    | nil => exact ⟨_, rfl, fun a b h => by cases h⟩
    | cons it rest =>
      obtain ⟨i, hlen, -, heq, -, -⟩ :=
        selectLoop_found (scoreItem (parse_authors_from_reference ref)
            (parse_year_from_reference ref)
            (if !(fac_title_to_match ref et).isEmpty then
              normalizeTitle (fac_title_to_match ref et) else "")
            (optStrTruthy et)) (it :: rest) none (-1)
          ⟨it, List.mem_cons_self _ _,
            lt_of_lt_of_le (by norm_num) (scoreItem_nonneg _ _ _ _ _)⟩
      dsimp only
      unfold selectBest
      rw [heq]
      dsimp only
      have hmem : (it :: rest).getD i dfltItem ∈ it :: rest := getD_mem hlen
      have hti : ((it :: rest).getD i dfltItem).title ≠ some [] :=
        htitle _ _ hres _ hmem
      generalize scoreItem (parse_authors_from_reference ref)
          (parse_year_from_reference ref)
          (if !(fac_title_to_match ref et).isEmpty then
            normalizeTitle (fac_title_to_match ref et) else "")
          (optStrTruthy et) ((it :: rest).getD i dfltItem) = sc
      cases ht : titleHeadE ((it :: rest).getD i dfltItem) with
      | error e =>
        exfalso
        apply hti
        cases hbt : ((it :: rest).getD i dfltItem).title with
        | none => simp only [titleHeadE, hbt] at ht; cases ht
        | some ts =>
          cases ts with
          | nil => rfl
          | cons t0 ts' => simp only [titleHeadE, hbt] at ht; cases ht
      | ok t =>
        split
        · split
          · cases hc : citeO (((it :: rest).getD i dfltItem).doi.getD "") with
            | some c =>
              dsimp only
              split
              · exact ⟨_, rfl, fun a b h => by cases h⟩
              · exact ⟨_, rfl, fun a b h => by cases h⟩
            | none =>
              dsimp only
              exact ⟨_, rfl, fun a b h => by cases h⟩
          · exact ⟨_, rfl, fun a b h => by cases h⟩
        · exact ⟨_, rfl, fun a b h => by cases h⟩

theorem find_and_cite_outcomes_witness :
    (∀ p its, (fun _ : ApiParams => (none : Option (List WorkItem))) p = some its →
      ∀ it ∈ its, it.title ≠ some []) ∧
    ∃ r : FCRResult,
      find_and_cite_reference "x" none none (fun _ => none) (fun _ => none)
        = Except.ok r ∧
      ∀ a b, r ≠ FCRResult.noConfidentMatch a b := by
  have h : ∀ p its, (fun _ : ApiParams => (none : Option (List WorkItem))) p = some its →
      ∀ it ∈ its, it.title ≠ some [] := fun p its hps => by cases hps
  exact ⟨h, find_and_cite_outcomes "x" none none (fun _ => none) (fun _ => none) h⟩

/-! ## Claim C7: the no-results outcome -/

def longRef : String := String.mk (List.replicate 120 'a')

/-- Claim C7 is false as stated on one payload detail: with no
candidates the outcome is indeed the no-results return, with no
citation fetch attempted, but it carries only the first 100 characters
of the reference (`reference_text[:100]`), not the original reference
text: on a 120-character reference the payload is a strict prefix. -/
theorem no_results_payload_truncated :
    find_and_cite_reference longRef none none (fun _ => some []) (fun _ => none)
      = Except.ok (FCRResult.noResults (String.mk (longRef.data.take 100))) ∧
    String.mk (longRef.data.take 100) ≠ longRef := by
  exact ⟨rfl, by decide⟩

/-- Claim C7 amended: whenever the search collaborator yields the
absence signal or an empty list for the parameter set this call issues,
the outcome is the no-results variant carrying the first 100 characters
of the original reference, and the result does not depend on the
citation-fetch collaborator (no citation fetch is attempted). -/
theorem no_results_outcome (ref : String) (et m : Option String)
    (searchO : ApiParams → Option (List WorkItem)) (citeO : String → Option String)
    (h : searchO (find_and_cite_params ref et m) = none ∨
      searchO (find_and_cite_params ref et m) = some []) :
    find_and_cite_reference ref et m searchO citeO
        = Except.ok (FCRResult.noResults (String.mk (ref.data.take 100))) ∧
    ∀ citeO', find_and_cite_reference ref et m searchO citeO'
        = find_and_cite_reference ref et m searchO citeO := by
  have key : ∀ co : String → Option String,
      find_and_cite_reference ref et m searchO co
        = Except.ok (FCRResult.noResults (String.mk (ref.data.take 100))) := by
    intro co
    simp only [find_and_cite_reference, search_crossref_api]
    have hp : withMailto m (build_api_params (fac_search_params ref et) 5)
        = find_and_cite_params ref et m := rfl
    rw [hp]
    rcases h with h | h <;> rw [h]
  exact ⟨key citeO, fun co' => by rw [key co', key citeO]⟩

theorem no_results_outcome_witness :
    ((fun _ : ApiParams => (none : Option (List WorkItem)))
        (find_and_cite_params "Some reference" none none) = none ∨
      (fun _ : ApiParams => (none : Option (List WorkItem)))
        (find_and_cite_params "Some reference" none none) = some []) ∧
    (find_and_cite_reference "Some reference" none none (fun _ => none) (fun _ => none)
        = Except.ok (FCRResult.noResults
            (String.mk (("Some reference" : String).data.take 100))) ∧
      ∀ citeO', find_and_cite_reference "Some reference" none none (fun _ => none) citeO'
        = find_and_cite_reference "Some reference" none none (fun _ => none)
            (fun _ => none)) :=
  ⟨Or.inl rfl,
    no_results_outcome "Some reference" none none (fun _ => none) (fun _ => none)
      (Or.inl rfl)⟩

end CrossrefBot
